import Mathlib

/-!
Verification of the open-wallpaper caching layer and favorites store.

The definitions below are a shallow embedding of:
  * the `cacheUtils` TTL cache and `FirestoreService` in
    `src/app/(tabs)/_layout.tsx`;
  * the `FavoritesService` in `services/favorites.service.ts`.

JavaScript `Map` objects are modelled as association lists with the
JavaScript semantics: `set` on an existing key replaces the value in
place, otherwise appends; iteration order is insertion order.
Timestamps (`Date.now()`) are modelled as integers passed explicitly.
Asynchronous platform calls that can reject (Firestore writes,
AsyncStorage reads and writes) are modelled by an explicit boolean
outcome parameter; a thrown error that escapes a function is modelled
by `Except.error`.
-/

namespace OpenWallpaper

/-! ### JavaScript Map model -/

/-- JS `Map.prototype.get`: first (hence, for a map, only) binding of `k`. -/
def jsMapGet {α : Type} : List (String × α) → String → Option α
  | [], _ => none
  | p :: ps, k => if p.1 == k then some p.2 else jsMapGet ps k

/-- JS `Map.prototype.set`: replace the binding of `k` in place, else append. -/
def jsMapSet {α : Type} : List (String × α) → String → α → List (String × α)
  | [], k, v => [(k, v)]
  | p :: ps, k, v => if p.1 == k then (k, v) :: ps else p :: jsMapSet ps k v

/-- JS `String.prototype.includes`: substring containment. -/
def strIncludes (s pat : String) : Bool :=
  decide (pat.toList <:+: s.toList)

@[simp] theorem jsMapGet_nil {α : Type} (k : String) :
    jsMapGet ([] : List (String × α)) k = none := rfl

@[simp] theorem jsMapGet_cons {α : Type} (p : String × α) (ps : List (String × α)) (k : String) :
    jsMapGet (p :: ps) k = if p.1 == k then some p.2 else jsMapGet ps k := rfl

@[simp] theorem jsMapSet_nil {α : Type} (k : String) (v : α) :
    jsMapSet ([] : List (String × α)) k v = [(k, v)] := rfl

@[simp] theorem jsMapSet_cons {α : Type} (p : String × α) (ps : List (String × α)) (k : String) (v : α) :
    jsMapSet (p :: ps) k v = if p.1 == k then (k, v) :: ps else p :: jsMapSet ps k v := rfl

theorem jsMapGet_jsMapSet_self {α : Type} (m : List (String × α)) (k : String) (v : α) :
    jsMapGet (jsMapSet m k v) k = some v := by
  induction m with
  | nil => simp
  | cons p ps ih =>
    by_cases h : p.1 = k
    · simp [h]
    · simp [h, ih]

theorem jsMapGet_jsMapSet_ne {α : Type} (m : List (String × α)) (k k' : String) (v : α)
    (h : k' ≠ k) : jsMapGet (jsMapSet m k v) k' = jsMapGet m k' := by
  induction m with
  | nil => simp [Ne.symm h]
  | cons p ps ih =>
    by_cases hp : p.1 = k
    · simp [hp, Ne.symm h]
    · by_cases hq : p.1 = k'
      · simp [hp, hq, h]
      · simp [hp, hq, ih]

/-! ### `cacheUtils` (src/app/(tabs)/_layout.tsx)

`const cache = new Map<string, { data, timestamp, ttl }>()`.
The payload type (`any` in the source) is a type parameter `α`.
-/

/-- An entry of the global `cache` map. -/
structure CacheEntry (α : Type) where
  data : α
  timestamp : Int
  ttl : Int
  deriving Repr, DecidableEq

/-- The global cache: a JS `Map` from string keys to entries. -/
abbrev Cache (α : Type) := List (String × CacheEntry α)

namespace cacheUtils

/-- `cacheUtils.set(key, data, ttl)` at clock reading `now`. -/
def set {α : Type} (c : Cache α) (key : String) (data : α) (now ttl : Int) : Cache α :=
  jsMapSet c key ⟨data, now, ttl⟩

/-- `cacheUtils.get(key)` at clock reading `now`.  Returns the value (or
`none`) together with the cache after the call: an expired entry is
deleted by the call itself. -/
def get {α : Type} (c : Cache α) (key : String) (now : Int) : Option α × Cache α :=
  match jsMapGet c key with
  | none => (none, c)
  | some cached =>
    if now - cached.timestamp > cached.ttl then
      (none, c.filter fun p => !(p.1 == key))
    else
      (some cached.data, c)

/-- `cacheUtils.invalidate(pattern)`: delete every key containing `pattern`. -/
def invalidate {α : Type} (c : Cache α) (pattern : String) : Cache α :=
  c.filter fun p => !(strIncludes p.1 pattern)

end cacheUtils

/-! ### `FirestoreService` (src/app/(tabs)/_layout.tsx)

A Firestore document is modelled as its generated string id together
with a payload of type `α` (the merge `{ id: doc.id, ...doc.data() }`).
Remote query outcomes are injected: `Settled` mirrors the state of one
promise of `Promise.allSettled`, and plain boolean flags mirror whether
an awaited remote call resolved or rejected (a rejection jumps to the
enclosing `catch`).
-/

/-- A fetched document: generated id plus field data. -/
structure WpDoc (α : Type) where
  id : String
  data : α
  deriving Repr, DecidableEq

/-- Outcome of one settled promise, as reported by `Promise.allSettled`. -/
inductive Settled (α : Type) where
  | fulfilled (value : α)
  | rejected
  deriving Repr, DecidableEq

/-- JS whitespace as recognised by `String.prototype.trim`. -/
def jsIsWhitespace (ch : Char) : Bool :=
  ch = ' ' || ch = '\t' || ch = '\n' || ch = '\r' || ch = '\x0b' || ch = '\x0c' ||
  ch = '\u00a0' || ch = '\ufeff' || ch = '\u2028' || ch = '\u2029'

/-- JS `String.prototype.trim`: strip whitespace from both ends. -/
def jsTrim (s : String) : String :=
  String.mk (((s.toList.dropWhile jsIsWhitespace).reverse.dropWhile jsIsWhitespace).reverse)

namespace FirestoreService

/-- The pagination state returned by `getWallpapersByCategory`. -/
structure PaginationState (α : Type) where
  lastDoc : Option (WpDoc α)
  hasMore : Bool
  deriving Repr, DecidableEq

/-- `FirestoreService.getWallpapersByCategory(categoryId, limitCount, paginationState)`.

`data` is the remote collection restricted to `categoryId` and ordered
by `createdAt` descending — the filtering and ordering are performed by
Firestore and are external to this model.  `startAfter(lastDoc)` is
modelled positionally: `start` is the index just past the previous page
in that fixed ordering (`start = 0` when no cursor is passed).
`queryOk` is whether the awaited `getDocs` resolved; on rejection the
`catch` returns an empty page with a cleared cursor. -/
def getWallpapersByCategory {α : Type} (data : List (WpDoc α)) (limitCount : Nat)
    (start : Nat) (queryOk : Bool) : List (WpDoc α) × PaginationState α :=
  if queryOk then
    let docs := (data.drop start).take limitCount
    (docs, ⟨docs.getLast?, docs.length == limitCount⟩)
  else
    ([], ⟨none, false⟩)

/-- The merge step of `searchWallpapers`: fill the `results` map with
the by-title docs, then the by-tag docs (a `rejected` snapshot
contributes nothing), with `Map.set` keyed by `doc.id`. -/
def searchResultsMap {α : Type} (titleSnapshot tagSnapshot : Settled (List (WpDoc α))) :
    List (String × WpDoc α) :=
  let results : List (String × WpDoc α) := []
  let results := match titleSnapshot with
    | .fulfilled docs => docs.foldl (fun m d => jsMapSet m d.id d) results
    | .rejected => results
  match tagSnapshot with
  | .fulfilled docs => docs.foldl (fun m d => jsMapSet m d.id d) results
  | .rejected => results

/-- `FirestoreService.searchWallpapers(searchTerm, limitCount)`.

The two remote queries (by-title prefix range on the upper-cased term,
by-tag containment of the lower-cased term) are external; their settled
outcomes are the parameters `titleSnapshot` and `tagSnapshot`.  Returns
the result list, the cache after the call, and whether the remote
queries were issued at all. -/
def searchWallpapers {α : Type} (searchTerm : String) (limitCount : Nat)
    (c : Cache (List (WpDoc α))) (now : Int)
    (titleSnapshot tagSnapshot : Settled (List (WpDoc α))) :
    List (WpDoc α) × Cache (List (WpDoc α)) × Bool :=
  if (jsTrim searchTerm).isEmpty then
    ([], c, false)
  else
    let cacheKey := "search_" ++ searchTerm.toLower ++ "_" ++ toString limitCount
    match cacheUtils.get c cacheKey now with
    | (some cached, c1) => (cached, c1, false)
    | (none, c1) =>
      let results := searchResultsMap titleSnapshot tagSnapshot
      let data := (results.map Prod.snd).take limitCount
      (data, cacheUtils.set c1 cacheKey data now (2 * 60 * 1000), true)

/-- `FirestoreService.incrementDownloadCount(wallpaperId)`.

The remote effect of `updateDoc` (atomic increment of `downloads`,
server timestamp) is external; `updateOk` is whether the awaited
`updateDoc` resolved.  On rejection control jumps to the `catch` before
the `invalidate` line, so the cache is returned unchanged. -/
def incrementDownloadCount {α : Type} (wallpaperId : String) (c : Cache α)
    (updateOk : Bool) : Bool × Cache α :=
  if updateOk then
    (true, cacheUtils.invalidate c ("wallpaper_" ++ wallpaperId))
  else
    (false, c)

/-- `FirestoreService.incrementViewCount(wallpaperId)`: same control
flow as `incrementDownloadCount`, updating `views` remotely. -/
def incrementViewCount {α : Type} (wallpaperId : String) (c : Cache α)
    (updateOk : Bool) : Bool × Cache α :=
  if updateOk then
    (true, cacheUtils.invalidate c ("wallpaper_" ++ wallpaperId))
  else
    (false, c)

end FirestoreService

/-! ### `FavoritesService` (services/favorites.service.ts)

`AsyncStorage` holds a single serialized blob under `FAVORITES_KEY`;
it is modelled already parsed, as `Option (List String)` (`none` when
the key is absent).  The module-level mutable mirror
(`favoritesCache`, `cacheTimestamp`) is part of the same state record.
`readOk` / `writeOk` / `removeOk` are whether the corresponding awaited
`AsyncStorage` call resolved. -/

namespace FavoritesService

def CACHE_DURATION : Int := 5 * 60 * 1000

/-- The persistent and in-process state of the favorites store. -/
structure FavState where
  storage : Option (List String)
  favoritesCache : Option (List String)
  cacheTimestamp : Int
  deriving Repr, DecidableEq

/-- The persisted favorites list: the parse of the stored blob, the
empty list when the storage key is absent (`stored ? JSON.parse(stored) : []`). -/
def persisted (s : FavState) : List String :=
  s.storage.getD []

/-- The storage-read path of `getFavorites` (the `try/catch` body):
on success, refresh the mirror; on failure, log and return `[]`
without touching the mirror. -/
def getFavoritesFromStorage (s : FavState) (now : Int) (readOk : Bool) :
    List String × FavState :=
  if readOk then
    let favorites := persisted s
    (favorites, { s with favoritesCache := some favorites, cacheTimestamp := now })
  else
    ([], s)

/-- `FavoritesService.getFavorites()`: serve the in-memory mirror when
present and fresh (note `favoritesCache` truthiness: the empty array is
truthy, only `null` falls through), else read storage. -/
def getFavorites (s : FavState) (now : Int) (readOk : Bool) :
    List String × FavState :=
  match s.favoritesCache with
  | some mirror =>
    if now - s.cacheTimestamp < CACHE_DURATION then (mirror, s)
    else getFavoritesFromStorage s now readOk
  | none => getFavoritesFromStorage s now readOk

/-- `FavoritesService.toggleFavorite(wallpaperId)`: flip membership,
persist the new list, refresh the mirror; a rejected `setItem` is
caught and rethrown as a fresh error, leaving storage and mirror as
they were after the inner `getFavorites`. -/
def toggleFavorite (wallpaperId : String) (s : FavState) (now : Int)
    (readOk writeOk : Bool) : Except String (Bool × String) × FavState :=
  let (favorites, s1) := getFavorites s now readOk
  let currentlyFavorite := favorites.contains wallpaperId
  let newFavorites :=
    if currentlyFavorite then favorites.filter (fun id => id != wallpaperId)
    else favorites ++ [wallpaperId]
  let message := if currentlyFavorite then "Retiré des favoris" else "Ajouté aux favoris"
  if writeOk then
    (Except.ok (!currentlyFavorite, message),
      { storage := some newFavorites, favoritesCache := some newFavorites,
        cacheTimestamp := now })
  else
    (Except.error "Erreur lors de la mise à jour des favoris", s1)

/-- `FavoritesService.addFavorite(wallpaperId)`: delegates to
`toggleFavorite` unconditionally and returns the resulting
`isFavorite` flag. -/
def addFavorite (wallpaperId : String) (s : FavState) (now : Int)
    (readOk writeOk : Bool) : Except String Bool × FavState :=
  let (r, s1) := toggleFavorite wallpaperId s now readOk writeOk
  (r.map (fun p => p.1), s1)

/-- `FavoritesService.removeFavorite(wallpaperId)`: return `true`
immediately when absent, else delegate to `toggleFavorite`. -/
def removeFavorite (wallpaperId : String) (s : FavState) (now : Int)
    (readOk writeOk : Bool) : Except String Bool × FavState :=
  let (favorites, s1) := getFavorites s now readOk
  if favorites.contains wallpaperId then
    let (r, s2) := toggleFavorite wallpaperId s1 now readOk writeOk
    (r.map (fun p => !p.1), s2)
  else
    (Except.ok true, s1)

/-- `FavoritesService.clearFavorites()`: remove the storage key and
reset the mirror to empty; a rejected `removeItem` is caught and
rethrown as a fresh error. -/
def clearFavorites (s : FavState) (now : Int) (removeOk : Bool) :
    Except String Unit × FavState :=
  if removeOk then
    (Except.ok (),
      { storage := none, favoritesCache := some [], cacheTimestamp := now })
  else
    (Except.error "Erreur lors de la suppression des favoris", s)

/-- `FavoritesService.importFavorites(favoriteIds)`: keep the non-empty
string ids, persist them, refresh the mirror; a rejected `setItem` is
caught and rethrown as a fresh error. -/
def importFavorites (favoriteIds : List String) (s : FavState) (now : Int)
    (writeOk : Bool) : Except String Unit × FavState :=
  let validIds := favoriteIds.filter (fun id => id.length > 0)
  if writeOk then
    (Except.ok (),
      { storage := some validIds, favoritesCache := some validIds,
        cacheTimestamp := now })
  else
    (Except.error "Erreur lors de l\x27importation des favoris", s)

end FavoritesService

/-! ### Helper lemmas -/

theorem jsMapGet_filter_key {α : Type} (m : List (String × α)) (q : String → Bool)
    (k : String) :
    jsMapGet (m.filter fun p => q p.1) k = if q k then jsMapGet m k else none := by
  induction m with
  | nil => simp
  | cons p ps ih =>
    by_cases hq : q p.1
    · by_cases hk : p.1 = k
      · simp [hq, hk, hk ▸ hq]
      · simp [hq, hk, ih]
    · by_cases hk : p.1 = k
      · simp only [Bool.not_eq_true] at hq
        simp [List.filter_cons, hq, ih, hk ▸ hq, hk]
      · simp [List.filter_cons, hq, ih, hk]

/-- Claim C5: a cache entry stored by `set(k, v, ttl)` at `storedAt` is served
by `get(k)` at `now` exactly when `now - storedAt ≤ ttl`; in the valid case the
cache is left untouched, and in the expired case that very `get` call deletes
the entry (there is no background sweep: deletion happens only here). -/
theorem cache_ttl_validity {α : Type} (c : Cache α) (k : String) (v : α)
    (storedAt ttl now : Int) :
    ((cacheUtils.get (cacheUtils.set c k v storedAt ttl) k now).1 =
      if now - storedAt ≤ ttl then some v else none) ∧
    (now - storedAt ≤ ttl →
      cacheUtils.get (cacheUtils.set c k v storedAt ttl) k now =
        (some v, cacheUtils.set c k v storedAt ttl)) ∧
    (ttl < now - storedAt →
      jsMapGet (cacheUtils.get (cacheUtils.set c k v storedAt ttl) k now).2 k = none) := by
  have hget : jsMapGet (cacheUtils.set c k v storedAt ttl) k =
      some ⟨v, storedAt, ttl⟩ := jsMapGet_jsMapSet_self c k ⟨v, storedAt, ttl⟩
  refine ⟨?_, ?_, ?_⟩
  · by_cases h : now - storedAt ≤ ttl
    · simp [cacheUtils.get, hget, not_lt.mpr h, h]
    · simp [cacheUtils.get, hget, not_le.mp h, h]
  · intro h
    simp [cacheUtils.get, hget, not_lt.mpr h]
  · intro h
    simp only [cacheUtils.get, hget, if_pos h]
    have := jsMapGet_filter_key (cacheUtils.set c k v storedAt ttl)
      (fun s => !(s == k)) k
    simpa using this

/-- Witness for `cache_ttl_validity` at a concrete input: key "wallpaper_7"
stored at time 0 with ttl 5000, read back at time 5000 (valid: served) and,
via the ttl bound, the expired read at 5001 deletes the entry. -/
theorem cache_ttl_validity_witness :
    cacheUtils.get (cacheUtils.set ([] : Cache Nat) "wallpaper_7" 3 0 5000) "wallpaper_7" 5000 =
      (some 3, cacheUtils.set ([] : Cache Nat) "wallpaper_7" 3 0 5000) ∧
    jsMapGet (cacheUtils.get (cacheUtils.set ([] : Cache Nat) "wallpaper_7" 3 0 5000)
      "wallpaper_7" 5001).2 "wallpaper_7" = none :=
  ⟨(cache_ttl_validity ([] : Cache Nat) "wallpaper_7" 3 0 5000 5000).2.1 (by decide),
   (cache_ttl_validity ([] : Cache Nat) "wallpaper_7" 3 0 5000 5001).2.2 (by decide)⟩

theorem jsMapGet_invalidate {α : Type} (c : Cache α) (pattern k : String) :
    jsMapGet (cacheUtils.invalidate c pattern) k =
      if pattern.toList <:+: k.toList then none else jsMapGet c k := by
  have := jsMapGet_filter_key c (fun s => !(strIncludes s pattern)) k
  simp only [cacheUtils.invalidate, strIncludes] at this ⊢
  by_cases h : pattern.toList <:+: k.toList
  · simpa [h] using this
  · simpa [h] using this

/-- Claim C6: `invalidate(pattern)` removes exactly the entries whose key
contains `pattern` as a substring: a key containing the pattern maps to
nothing afterwards, and any other key keeps its binding unchanged. -/
theorem invalidate_removes_exactly_matching {α : Type} (c : Cache α)
    (pattern k : String) :
    jsMapGet (cacheUtils.invalidate c pattern) k =
      if pattern.toList <:+: k.toList then none else jsMapGet c k :=
  jsMapGet_invalidate c pattern k

/-- Witness for `invalidate_removes_exactly_matching` at the concrete
input from the spec: after storing under "wallpaper_42" and "wallpaper_420",
`invalidate("wallpaper_42")` removes both (substring match), while an
unrelated key "category_9" survives. -/
theorem invalidate_removes_exactly_matching_witness :
    (jsMapGet (cacheUtils.invalidate (cacheUtils.set (cacheUtils.set
        (cacheUtils.set ([] : Cache Nat) "category_9" 7 0 1000)
        "wallpaper_42" 1 0 1000) "wallpaper_420" 2 0 1000) "wallpaper_42")
      "wallpaper_42" = none) ∧
    (jsMapGet (cacheUtils.invalidate (cacheUtils.set (cacheUtils.set
        (cacheUtils.set ([] : Cache Nat) "category_9" 7 0 1000)
        "wallpaper_42" 1 0 1000) "wallpaper_420" 2 0 1000) "wallpaper_42")
      "wallpaper_420" = none) ∧
    (jsMapGet (cacheUtils.invalidate (cacheUtils.set (cacheUtils.set
        (cacheUtils.set ([] : Cache Nat) "category_9" 7 0 1000)
        "wallpaper_42" 1 0 1000) "wallpaper_420" 2 0 1000) "wallpaper_42")
      "category_9" = some ⟨7, 0, 1000⟩) := by
  refine ⟨?_, ?_, ?_⟩
  · rw [invalidate_removes_exactly_matching]
    decide
  · rw [invalidate_removes_exactly_matching]
    decide
  · rw [invalidate_removes_exactly_matching]
    decide

/-- Claim C1, counterexample: the claim asserts that the increment operations
invalidate the `wallpaper_<id>` cache entries even when the remote update
throws.  In the source the `invalidate` call sits inside the `try` block after
`await updateDoc`, so a rejected update jumps to the `catch` first: at a cache
holding the single key "wallpaper_w1" and a failing remote update, both
increment operations return `false` and the entry is still present. -/
theorem increment_failure_skips_invalidation :
    (FirestoreService.incrementDownloadCount "w1"
        (cacheUtils.set ([] : Cache Nat) "wallpaper_w1" 5 0 1000) false).1 = false ∧
    jsMapGet (FirestoreService.incrementDownloadCount "w1"
        (cacheUtils.set ([] : Cache Nat) "wallpaper_w1" 5 0 1000) false).2
      "wallpaper_w1" = some ⟨5, 0, 1000⟩ ∧
    jsMapGet (FirestoreService.incrementViewCount "w1"
        (cacheUtils.set ([] : Cache Nat) "wallpaper_w1" 5 0 1000) false).2
      "wallpaper_w1" = some ⟨5, 0, 1000⟩ := by
  decide

/-- Claim C1, amended: `incrementDownloadCount(id)` and `incrementViewCount(id)`
invalidate the cache entries whose key contains `wallpaper_<id>` only when the
remote update succeeds (returning `true`); when the remote update throws, the
error is caught, the cache is returned unchanged, and `false` is returned — the
invalidation does not proceed. -/
theorem increment_invalidation_only_on_success {α : Type} (c : Cache α)
    (wallpaperId k : String) :
    (FirestoreService.incrementDownloadCount wallpaperId c true =
        (true, cacheUtils.invalidate c ("wallpaper_" ++ wallpaperId)) ∧
      jsMapGet (FirestoreService.incrementDownloadCount wallpaperId c true).2 k =
        if ("wallpaper_" ++ wallpaperId).toList <:+: k.toList then none
        else jsMapGet c k) ∧
    (FirestoreService.incrementViewCount wallpaperId c true =
        (true, cacheUtils.invalidate c ("wallpaper_" ++ wallpaperId)) ∧
      jsMapGet (FirestoreService.incrementViewCount wallpaperId c true).2 k =
        if ("wallpaper_" ++ wallpaperId).toList <:+: k.toList then none
        else jsMapGet c k) ∧
    FirestoreService.incrementDownloadCount wallpaperId c false = (false, c) ∧
    FirestoreService.incrementViewCount wallpaperId c false = (false, c) := by
  refine ⟨⟨rfl, ?_⟩, ⟨rfl, ?_⟩, rfl, rfl⟩
  · simpa [FirestoreService.incrementDownloadCount] using
      jsMapGet_invalidate c ("wallpaper_" ++ wallpaperId) k
  · simpa [FirestoreService.incrementViewCount] using
      jsMapGet_invalidate c ("wallpaper_" ++ wallpaperId) k

/-- Claim C4: on a successful fetch, the `hasMore` flag of the returned cursor is
true iff the fetched page length equals the requested limit, its `lastDoc` is
the last item of the returned page (`none` on an empty page), and when the
data remaining from `start` is exactly one full page — as happens on the last
page when the total size is an exact multiple of the page size — `hasMore` is
still true even though no data remains. -/
theorem pagination_cursor_spec {α : Type} (data : List (WpDoc α))
    (limitCount start : Nat) :
    ((FirestoreService.getWallpapersByCategory data limitCount start true).2.hasMore = true ↔
      (FirestoreService.getWallpapersByCategory data limitCount start true).1.length =
        limitCount) ∧
    ((FirestoreService.getWallpapersByCategory data limitCount start true).2.lastDoc =
      (FirestoreService.getWallpapersByCategory data limitCount start true).1.getLast?) ∧
    (data.length = start + limitCount →
      (FirestoreService.getWallpapersByCategory data limitCount start true).2.hasMore = true ∧
      data.drop (start + limitCount) = []) := by
  refine ⟨?_, rfl, fun h => ⟨?_, ?_⟩⟩
  · simp [FirestoreService.getWallpapersByCategory]
  · simp only [FirestoreService.getWallpapersByCategory, if_pos, List.length_take,
      List.length_drop, beq_iff_eq]
    omega
  · exact List.drop_eq_nil_of_le (by omega)

/-- Witness for `pagination_cursor_spec`: four items with page size 2, reading
the second (last) page from position 2 — `hasMore` is reported true although
the data is exhausted. -/
theorem pagination_cursor_spec_witness :
    (FirestoreService.getWallpapersByCategory
        [⟨"a", 0⟩, ⟨"b", 0⟩, ⟨"c", 0⟩, (⟨"d", 0⟩ : WpDoc Nat)] 2 2 true).2.hasMore = true ∧
    ([⟨"a", 0⟩, ⟨"b", 0⟩, ⟨"c", 0⟩, (⟨"d", 0⟩ : WpDoc Nat)] : List (WpDoc Nat)).drop (2 + 2) = [] :=
  (pagination_cursor_spec [⟨"a", 0⟩, ⟨"b", 0⟩, ⟨"c", 0⟩, ⟨"d", 0⟩] 2 2).2.2 (by decide)

theorem jsTrim_eq_empty (s : String) (h : s.toList.all jsIsWhitespace = true) :
    jsTrim s = "" := by
  have h1 : s.toList.dropWhile jsIsWhitespace = [] :=
    List.dropWhile_eq_nil_iff.mpr (fun x hx => List.all_eq_true.mp h x hx)
  unfold jsTrim
  rw [h1]
  rfl

/-- Claim C10: for a search term consisting only of whitespace (the empty
string included), `searchWallpapers` returns the empty list immediately: the
cache is returned untouched (no read, hence no lazy eviction, and no stored
entry) and no remote query is issued. -/
theorem whitespace_search_is_noop {α : Type} (searchTerm : String) (limitCount : Nat)
    (c : Cache (List (WpDoc α))) (now : Int)
    (titleSnapshot tagSnapshot : Settled (List (WpDoc α)))
    (h : searchTerm.toList.all jsIsWhitespace = true) :
    FirestoreService.searchWallpapers searchTerm limitCount c now titleSnapshot tagSnapshot =
      ([], c, false) := by
  have ht : (jsTrim searchTerm).isEmpty = true := by
    rw [jsTrim_eq_empty searchTerm h]; rfl
  simp [FirestoreService.searchWallpapers, ht]

/-- Witness for `whitespace_search_is_noop`: the term " \t" against a
non-empty cache, with both remote queries poised to reject. -/
theorem whitespace_search_is_noop_witness :
    FirestoreService.searchWallpapers " \t" 5
        (cacheUtils.set ([] : Cache (List (WpDoc Nat))) "search_a_5" [] 0 1000) 0
        Settled.rejected Settled.rejected =
      ([], cacheUtils.set ([] : Cache (List (WpDoc Nat))) "search_a_5" [] 0 1000, false) :=
  whitespace_search_is_noop " \t" 5
    (cacheUtils.set ([] : Cache (List (WpDoc Nat))) "search_a_5" [] 0 1000) 0
    Settled.rejected Settled.rejected (by decide)

/-! ### Favorites store theorems -/

/-- The state of `favorites.service.ts` at module load for a fresh install:
`favoritesCache = null`, `cacheTimestamp = 0`, and no blob stored yet under
`FAVORITES_KEY`. -/
def initialFavState : FavoritesService.FavState :=
  { storage := none, favoritesCache := none, cacheTimestamp := 0 }

theorem favorites_cache_pos : (0 : Int) < FavoritesService.CACHE_DURATION := by
  norm_num [FavoritesService.CACHE_DURATION]

/-- Claim C8: from the initial empty favorites state, `toggleFavorite(id)`
returns `isFavorite = true` and `getFavorites()` then returns `[id]`;
toggling the same id again returns `isFavorite = false` and `getFavorites()`
then returns `[]` — for every id and independently of the storage-read
outcomes along the way. -/
theorem toggle_round_trip (wallpaperId : String) (now : Int) (r1 r2 r3 r4 : Bool) :
    (FavoritesService.toggleFavorite wallpaperId initialFavState now r1 true).1 =
      Except.ok (true, "Ajouté aux favoris") ∧
    (FavoritesService.getFavorites
      (FavoritesService.toggleFavorite wallpaperId initialFavState now r1 true).2 now r2).1 =
      [wallpaperId] ∧
    (FavoritesService.toggleFavorite wallpaperId
      (FavoritesService.toggleFavorite wallpaperId initialFavState now r1 true).2
      now r3 true).1 = Except.ok (false, "Retiré des favoris") ∧
    (FavoritesService.getFavorites
      (FavoritesService.toggleFavorite wallpaperId
        (FavoritesService.toggleFavorite wallpaperId initialFavState now r1 true).2
        now r3 true).2 now r4).1 = [] := by
  have key1 : FavoritesService.toggleFavorite wallpaperId initialFavState now r1 true =
      (Except.ok (true, "Ajouté aux favoris"),
        ⟨some [wallpaperId], some [wallpaperId], now⟩) := by
    cases r1 <;>
      simp [FavoritesService.toggleFavorite, FavoritesService.getFavorites,
        FavoritesService.getFavoritesFromStorage, initialFavState, FavoritesService.persisted]
  have key2 : ∀ r : Bool,
      FavoritesService.getFavorites ⟨some [wallpaperId], some [wallpaperId], now⟩ now r =
        ([wallpaperId], ⟨some [wallpaperId], some [wallpaperId], now⟩) := by
    intro r
    simp [FavoritesService.getFavorites, sub_self, favorites_cache_pos]
  have key3 : FavoritesService.toggleFavorite wallpaperId
      ⟨some [wallpaperId], some [wallpaperId], now⟩ now r3 true =
      (Except.ok (false, "Retiré des favoris"), ⟨some [], some [], now⟩) := by
    simp [FavoritesService.toggleFavorite, key2 r3]
  have key4 : ∀ r : Bool,
      FavoritesService.getFavorites ⟨some [], some [], now⟩ now r =
        ([], ⟨some [], some [], now⟩) := by
    intro r
    simp [FavoritesService.getFavorites, sub_self, favorites_cache_pos]
  refine ⟨?_, ?_, ?_, ?_⟩
  · rw [key1]
  · rw [key1, key2 r2]
  · rw [key1, key3]
  · rw [key1, key3, key4 r4]

/-- Claim C9: every successful favorites mutation leaves the in-memory mirror
equal to the persisted list (`toggleFavorite`, `clearFavorites`,
`importFavorites` each write the store and synchronously set the mirror to the
same list), and once the mirror agrees with the store a successful
`getFavorites` returns exactly the persisted list at any later time —
inside the freshness window it is served from the mirror, outside it from
the store itself. -/
theorem mutation_syncs_mirror (s : FavoritesService.FavState) (now : Int)
    (wallpaperId : String) (ids : List String) (r : Bool) :
    ((FavoritesService.toggleFavorite wallpaperId s now r true).2.favoritesCache =
      some (FavoritesService.persisted
        (FavoritesService.toggleFavorite wallpaperId s now r true).2)) ∧
    ((FavoritesService.clearFavorites s now true).2.favoritesCache =
      some (FavoritesService.persisted (FavoritesService.clearFavorites s now true).2)) ∧
    ((FavoritesService.importFavorites ids s now true).2.favoritesCache =
      some (FavoritesService.persisted (FavoritesService.importFavorites ids s now true).2)) ∧
    (∀ now2 : Int, s.favoritesCache = some (FavoritesService.persisted s) →
      (FavoritesService.getFavorites s now2 true).1 = FavoritesService.persisted s) := by
  refine ⟨?_, ?_, ?_, ?_⟩
  · rcases h : FavoritesService.getFavorites s now r with ⟨favs, s1⟩
    simp [FavoritesService.toggleFavorite, h, FavoritesService.persisted]
  · simp [FavoritesService.clearFavorites, FavoritesService.persisted]
  · simp [FavoritesService.importFavorites, FavoritesService.persisted]
  · intro now2 hmir
    simp only [FavoritesService.getFavorites, hmir, FavoritesService.getFavoritesFromStorage,
      if_true]
    split <;> simp [FavoritesService.persisted]

/-- Witness for `mutation_syncs_mirror` at a concrete input: a state whose
mirror agrees with the store (as after a mutation) is read back exactly, here
outside the freshness window so the storage path is exercised. -/
theorem mutation_syncs_mirror_witness :
    (FavoritesService.getFavorites ⟨some ["a"], some ["a"], 5⟩ 300000000 true).1 =
      FavoritesService.persisted ⟨some ["a"], some ["a"], 5⟩ :=
  (mutation_syncs_mirror ⟨some ["a"], some ["a"], 5⟩ 0 "w" [] true).2.2.2 300000000 rfl

/-- Claim C3, counterexample: `getFavorites` does not propagate a blob-store
read failure.  At a state with no usable mirror and a failing `getItem`, the
`catch` inside `getFavorites` swallows the error: the call returns the empty
list with the state untouched instead of raising. -/
theorem getFavorites_swallows_read_failure :
    FavoritesService.getFavorites ⟨some ["w1"], none, 0⟩ 5 false =
      ([], ⟨some ["w1"], none, 0⟩) := rfl

/-- Claim C3, amended: persistence failures in the favorites mutations
(`toggleFavorite`, `clearFavorites`, `importFavorites`) are propagated as
thrown errors to the caller, but a blob-store read failure inside
`getFavorites` is caught: whenever the mirror cannot serve the call (absent,
or outside the freshness window), a failing read makes `getFavorites` return
the empty list with the state unchanged, rather than raise. -/
theorem favorites_error_propagation (s : FavoritesService.FavState) (now : Int)
    (wallpaperId : String) (ids : List String) (r : Bool) :
    ((FavoritesService.toggleFavorite wallpaperId s now r false).1 =
      Except.error "Erreur lors de la mise à jour des favoris") ∧
    (FavoritesService.clearFavorites s now false =
      (Except.error "Erreur lors de la suppression des favoris", s)) ∧
    (FavoritesService.importFavorites ids s now false =
      (Except.error "Erreur lors de l\x27importation des favoris", s)) ∧
    (s.favoritesCache = none → FavoritesService.getFavorites s now false = ([], s)) ∧
    (FavoritesService.CACHE_DURATION ≤ now - s.cacheTimestamp →
      FavoritesService.getFavorites s now false = ([], s)) := by
  refine ⟨?_, rfl, rfl, ?_, ?_⟩
  · rcases h : FavoritesService.getFavorites s now r with ⟨favs, s1⟩
    simp [FavoritesService.toggleFavorite, h]
  · intro hmir
    simp [FavoritesService.getFavorites, hmir, FavoritesService.getFavoritesFromStorage]
  · intro hstale
    cases hmir : s.favoritesCache with
    | none =>
      simp [FavoritesService.getFavorites, hmir, FavoritesService.getFavoritesFromStorage]
    | some mirror =>
      simp [FavoritesService.getFavorites, hmir, FavoritesService.getFavoritesFromStorage,
        not_lt.mpr hstale]

/-- Witness for `favorites_error_propagation` at concrete inputs: a failing
write out of `toggleFavorite` raises, and a failing read out of
`getFavorites` on a mirror-less state returns the empty list. -/
theorem favorites_error_propagation_witness :
    ((FavoritesService.toggleFavorite "w1" ⟨some [], none, 0⟩ 0 true false).1 =
      Except.error "Erreur lors de la mise à jour des favoris") ∧
    FavoritesService.getFavorites ⟨none, none, 0⟩ 0 false = ([], ⟨none, none, 0⟩) :=
  ⟨(favorites_error_propagation ⟨some [], none, 0⟩ 0 "w1" [] true).1,
   (favorites_error_propagation ⟨none, none, 0⟩ 0 "w1" [] true).2.2.2.1 rfl⟩

/-- Claim C2: `removeFavorite(id)` when `id` is absent is indeed a no-op that
returns success, but `addFavorite(id)` when `id` is already a favorite is NOT
a no-op: it delegates to `toggleFavorite` unconditionally, so it removes the
id from the persisted list and from the mirror and reports `false`.  Evaluated
here at the failing input: persisted favorites `["w1"]`, healthy storage,
`addFavorite("w1")`. -/
theorem addFavorite_no_noop_guard :
    ((FavoritesService.addFavorite "w1" ⟨some ["w1"], none, 0⟩ 0 true true).1 =
      Except.ok false) ∧
    (FavoritesService.persisted
      (FavoritesService.addFavorite "w1" ⟨some ["w1"], none, 0⟩ 0 true true).2 = []) ∧
    ((FavoritesService.addFavorite "w1" ⟨some ["w1"], none, 0⟩ 0 true true).2.favoritesCache =
      some []) ∧
    ((FavoritesService.removeFavorite "w2" ⟨some ["w1"], none, 0⟩ 0 true true).1 =
      Except.ok true) ∧
    (FavoritesService.persisted
      (FavoritesService.removeFavorite "w2" ⟨some ["w1"], none, 0⟩ 0 true true).2 = ["w1"]) :=
  ⟨rfl, rfl, rfl, rfl, rfl⟩

/-! ### Search-merge helper lemmas -/

theorem jsMapSet_append_of_not_mem {α : Type} (m : List (String × α)) (k : String) (v : α)
    (h : k ∉ m.map Prod.fst) : jsMapSet m k v = m ++ [(k, v)] := by
  induction m with
  | nil => rfl
  | cons p ps ih =>
    simp only [List.map_cons, List.mem_cons, not_or] at h
    simp [Ne.symm h.1, ih h.2]

theorem mem_keys_jsMapSet {α : Type} (m : List (String × α)) (k x : String) (v : α) :
    x ∈ (jsMapSet m k v).map Prod.fst ↔ x ∈ m.map Prod.fst ∨ x = k := by
  induction m with
  | nil => simp
  | cons p ps ih =>
    by_cases hp : p.1 = k
    · simp [hp]
      tauto
    · simp [hp, ih]
      tauto

theorem keys_nodup_jsMapSet {α : Type} (m : List (String × α)) (k : String) (v : α)
    (h : (m.map Prod.fst).Nodup) : ((jsMapSet m k v).map Prod.fst).Nodup := by
  induction m with
  | nil => simp
  | cons p ps ih =>
    simp only [List.map_cons, List.nodup_cons] at h
    by_cases hp : p.1 = k
    · simp only [jsMapSet_cons, beq_iff_eq, if_pos hp, List.map_cons, List.nodup_cons]
      exact ⟨hp ▸ h.1, h.2⟩
    · simp only [jsMapSet_cons, beq_iff_eq, if_neg hp, List.map_cons, List.nodup_cons]
      refine ⟨?_, ih h.2⟩
      intro hmem
      rcases (mem_keys_jsMapSet ps k p.1 v).mp hmem with h1 | h1
      · exact h.1 h1
      · exact hp h1


theorem coherent_jsMapSet {α : Type} (m : List (String × WpDoc α)) (d : WpDoc α)
    (h : ∀ p ∈ m, p.1 = p.2.id) : ∀ p ∈ jsMapSet m d.id d, p.1 = p.2.id := by
  induction m with
  | nil => simp
  | cons q qs ih =>
    by_cases hq : q.1 = d.id
    · simp only [jsMapSet_cons, beq_iff_eq, if_pos hq, List.mem_cons]
      rintro p (rfl | hp)
      · rfl
      · exact h p (List.mem_cons_of_mem q hp)
    · simp only [jsMapSet_cons, beq_iff_eq, if_neg hq, List.mem_cons]
      rintro p (rfl | hp)
      · exact h _ (List.mem_cons_self _ _)
      · exact ih (fun r hr => h r (List.mem_cons_of_mem q hr)) p hp

theorem foldl_set_preserves {α : Type} (ds : List (WpDoc α)) (m : List (String × WpDoc α))
    (h1 : (m.map Prod.fst).Nodup) (h2 : ∀ p ∈ m, p.1 = p.2.id) :
    ((ds.foldl (fun m d => jsMapSet m d.id d) m).map Prod.fst).Nodup ∧
    (∀ p ∈ ds.foldl (fun m d => jsMapSet m d.id d) m, p.1 = p.2.id) := by
  induction ds generalizing m with
  | nil => exact ⟨h1, h2⟩
  | cons d ds ih =>
    exact ih (jsMapSet m d.id d) (keys_nodup_jsMapSet m d.id d h1) (coherent_jsMapSet m d h2)

theorem values_ids_eq_keys {α : Type} (m : List (String × WpDoc α))
    (h : ∀ p ∈ m, p.1 = p.2.id) :
    (m.map Prod.snd).map (fun d => d.id) = m.map Prod.fst := by
  induction m with
  | nil => rfl
  | cons p ps ih =>
    simp only [List.map_cons, List.cons.injEq]
    exact ⟨(h p (List.mem_cons_self p ps)).symm,
      ih (fun q hq => h q (List.mem_cons_of_mem p hq))⟩

theorem jsMapGet_foldl_set {α : Type} (ds : List (WpDoc α)) (m : List (String × WpDoc α))
    (k : String) :
    jsMapGet (ds.foldl (fun m d => jsMapSet m d.id d) m) k =
      (ds.reverse.find? (fun d => d.id == k)).or (jsMapGet m k) := by
  induction ds generalizing m with
  | nil => simp
  | cons d ds ih =>
    simp only [List.foldl_cons, ih, List.reverse_cons, List.find?_append]
    cases hfind : ds.reverse.find? (fun d => d.id == k) with
    | some x => rfl
    | none =>
      show jsMapGet (jsMapSet m d.id d) k =
        (List.find? (fun d => d.id == k) [d]).or (jsMapGet m k)
      by_cases hk : d.id = k
      · subst hk
        simp [jsMapGet_jsMapSet_self, List.find?]
      · have hbeq : (d.id == k) = false := beq_eq_false_iff_ne.mpr hk
        simp [jsMapGet_jsMapSet_ne m d.id k d (Ne.symm hk), List.find?, hbeq]

theorem foldl_set_of_disjoint {α : Type} (ds : List (WpDoc α)) (m : List (String × WpDoc α))
    (hnd : (ds.map (fun d => d.id)).Nodup)
    (hdisj : ∀ d ∈ ds, d.id ∉ m.map Prod.fst) :
    ds.foldl (fun m d => jsMapSet m d.id d) m = m ++ ds.map (fun d => (d.id, d)) := by
  induction ds generalizing m with
  | nil => simp
  | cons d ds ih =>
    simp only [List.map_cons, List.nodup_cons] at hnd
    have hset : jsMapSet m d.id d = m ++ [(d.id, d)] :=
      jsMapSet_append_of_not_mem m d.id d (hdisj d (List.mem_cons_self d ds))
    have hdisj2 : ∀ d2 ∈ ds, d2.id ∉ (m ++ [(d.id, d)]).map Prod.fst := by
      intro d2 hd2
      simp only [List.map_append, List.mem_append, List.map_cons, List.map_nil,
        List.mem_singleton, not_or]
      refine ⟨hdisj d2 (List.mem_cons_of_mem d hd2), ?_⟩
      intro heq
      exact hnd.1 (heq ▸ List.mem_map_of_mem (fun d => d.id) hd2)
    simp only [List.foldl_cons, hset, ih (m ++ [(d.id, d)]) hnd.2 hdisj2, List.map_cons]
    simp

/-- Claim C7: the merge step of `searchWallpapers` is a map keyed by document
id, so the merged result contains each identifier at most once; a lookup in
the merged map yields the LAST write for that identifier in the order
by-title docs then by-tag docs (so a by-tag result wins on a duplicate
identifier); the returned list is truncated to at most the requested limit; a
rejected query contributes nothing while the results of the other query are still
returned in full (up to the limit); and on a cache miss `searchWallpapers`
returns exactly this merged, truncated list. -/
theorem search_merge_spec {α : Type} (titleDocs tagDocs : List (WpDoc α))
    (limitCount : Nat) :
    ((((FirestoreService.searchResultsMap (Settled.fulfilled titleDocs)
        (Settled.fulfilled tagDocs)).map Prod.snd).take limitCount).map
        (fun d => d.id)).Nodup ∧
    ((((FirestoreService.searchResultsMap (Settled.fulfilled titleDocs)
        (Settled.fulfilled tagDocs)).map Prod.snd).take limitCount).length ≤ limitCount) ∧
    (∀ k : String,
      jsMapGet (FirestoreService.searchResultsMap (Settled.fulfilled titleDocs)
          (Settled.fulfilled tagDocs)) k =
        (titleDocs ++ tagDocs).reverse.find? (fun d => d.id == k)) ∧
    ((tagDocs.map (fun d => d.id)).Nodup →
      ((FirestoreService.searchResultsMap Settled.rejected
        (Settled.fulfilled tagDocs)).map Prod.snd).take limitCount =
        tagDocs.take limitCount) ∧
    ((titleDocs.map (fun d => d.id)).Nodup →
      ((FirestoreService.searchResultsMap (Settled.fulfilled titleDocs)
        Settled.rejected).map Prod.snd).take limitCount =
        titleDocs.take limitCount) ∧
    (∀ (searchTerm : String) (now : Int) (t g : Settled (List (WpDoc α))),
      (jsTrim searchTerm).isEmpty = false →
      (FirestoreService.searchWallpapers searchTerm limitCount
          ([] : Cache (List (WpDoc α))) now t g).1 =
        ((FirestoreService.searchResultsMap t g).map Prod.snd).take limitCount) := by
  have hcomp : FirestoreService.searchResultsMap (Settled.fulfilled titleDocs)
      (Settled.fulfilled tagDocs) =
      (titleDocs ++ tagDocs).foldl (fun m d => jsMapSet m d.id d) [] := by
    simp [FirestoreService.searchResultsMap, List.foldl_append]
  have h1 := foldl_set_preserves (titleDocs ++ tagDocs) [] (by simp) (by simp)
  refine ⟨?_, List.length_take_le _ _, ?_, ?_, ?_, ?_⟩
  · rw [hcomp, List.map_take, values_ids_eq_keys _ h1.2]
    exact h1.1.sublist (List.take_sublist _ _)
  · intro k
    rw [hcomp, jsMapGet_foldl_set]
    cases (titleDocs ++ tagDocs).reverse.find? (fun d => d.id == k) <;> rfl
  · intro hnd
    have hfold := foldl_set_of_disjoint tagDocs [] hnd (by simp)
    simp [FirestoreService.searchResultsMap, hfold, List.map_map, Function.comp_def]
  · intro hnd
    have hfold := foldl_set_of_disjoint titleDocs [] hnd (by simp)
    simp [FirestoreService.searchResultsMap, hfold, List.map_map, Function.comp_def]
  · intro searchTerm now t g h
    simp [FirestoreService.searchWallpapers, h, cacheUtils.get]

/-- Witness for `search_merge_spec` at concrete inputs: with the by-title
query rejected and the by-tag query returning two docs with distinct ids, the
tag results are returned truncated to the limit; and a cache-miss search with
term "A" returns the merged list of the two fulfilled snapshots. -/
theorem search_merge_spec_witness :
    (((FirestoreService.searchResultsMap Settled.rejected
        (Settled.fulfilled [⟨"b", 20⟩, (⟨"c", 3⟩ : WpDoc Nat)])).map Prod.snd).take 2 =
      ([⟨"b", 20⟩, (⟨"c", 3⟩ : WpDoc Nat)] : List (WpDoc Nat)).take 2) ∧
    ((FirestoreService.searchWallpapers "A" 2 ([] : Cache (List (WpDoc Nat))) 0
        (Settled.fulfilled [⟨"a", 1⟩, ⟨"b", 2⟩])
        (Settled.fulfilled [⟨"b", 20⟩, ⟨"c", 3⟩])).1 =
      ((FirestoreService.searchResultsMap (Settled.fulfilled [⟨"a", 1⟩, ⟨"b", 2⟩])
        (Settled.fulfilled [⟨"b", 20⟩, (⟨"c", 3⟩ : WpDoc Nat)])).map Prod.snd).take 2) :=
  ⟨(search_merge_spec ([] : List (WpDoc Nat)) [⟨"b", 20⟩, ⟨"c", 3⟩] 2).2.2.2.1 (by decide),
   (search_merge_spec [⟨"a", 1⟩, (⟨"b", 2⟩ : WpDoc Nat)] [⟨"b", 20⟩, ⟨"c", 3⟩] 2).2.2.2.2.2
     "A" 0 (Settled.fulfilled [⟨"a", 1⟩, ⟨"b", 2⟩])
     (Settled.fulfilled [⟨"b", 20⟩, ⟨"c", 3⟩]) (by decide)⟩

end OpenWallpaper
